import Mathlib

/-!
Shallow embedding of the signature-based authorization services of this
repository:

* `Pkr` — src/support-system/public-key-registry/app/main.py (KeyDirectory)
* `Fc`  — src/support-system/federated-catalog/app/main.py (CatalogAuthority)
* `Lca` — src/user-env/local-catalog-authz/app/main.py (LocalAccessController)

Conventions of the embedding:

* FastAPI `HTTPException(status_code, detail)` becomes `Fault.http ⟨status, detail⟩`.
  Interpolated ids inside detail strings are dropped; the status code and the
  fixed part of the detail are kept.  An unhandled Python `TypeError`
  (a raw 500 with no taxonomy detail) becomes the distinct `Fault.typeError`.
* Elliptic-curve cryptography is abstracted by a `Crypto` oracle:
  `keyDecodes` models `VerifyingKey.from_pem` succeeding, `sigDecodes` models
  `base64.b64decode` succeeding, `verifies` models `vk.verify` accepting.
* `datetime.fromisoformat` is abstracted by a parse oracle
  `pt : String → Option Int`; wall-clock instants are `Int`.
* The remote Public-Key-Registry seen by the two catalog services is
  abstracted by `dir : String → DirResult` giving, per user id, either a
  transport failure or an HTTP status plus an optional `public_key` field.
* Database tables become lists of records; SQLAlchemy `query(...).first()`
  becomes `List.find?`, `db.delete(row)` becomes erasure of the first match,
  and a cascading delete filters out all child rows.
-/

/-- Status code and detail of a FastAPI HTTPException response. -/
structure HTTPErr where
  status : Nat
  detail : String
deriving DecidableEq, Repr

/-- Outcome of a failed request: either a raised `HTTPException`, or an
unhandled Python exception (`TypeError`) surfacing as a raw internal fault. -/
inductive Fault where
  | http (e : HTTPErr)
  | typeError
deriving DecidableEq, Repr

/-- Abstraction of the ECDSA/base64 primitives used by `verify_signature`. -/
structure Crypto where
  keyDecodes : String → Bool
  sigDecodes : String → Bool
  verifies : String → String → String → Bool

/-- Erase the first element satisfying `p`; models `db.delete(row)` for a row
obtained with `query(...).first()`. -/
def eraseFirst {α : Type} (p : α → Bool) : List α → List α
  | [] => []
  | x :: xs => if p x then xs else x :: eraseFirst p xs

/-- Embeds `check_expire_time` (duplicated verbatim in all three services):
parse the ISO8601 string (400 on failure), then reject with 400
"Signature expired" when `now > expire_dt` — strictly greater, so an
`expire_time` equal to now passes. -/
def check_expire_time (pt : String → Option Int) (now : Int)
    (expire_time_str : String) : Except Fault Unit :=
  match pt expire_time_str with
  | none => .error (.http ⟨400, "Invalid expire_time format"⟩)
  | some expire_dt =>
    if now > expire_dt then .error (.http ⟨400, "Signature expired"⟩)
    else .ok ()

/-- Embeds the public-key-registry variant of `verify_signature`, which
returns a `bool`: `BadSignatureError` and every decoding exception alike
produce `False`. -/
def pkr_verify_signature (c : Crypto) (public_key_pem message signature_b64 : String) : Bool :=
  c.keyDecodes public_key_pem && c.sigDecodes signature_b64 &&
    c.verifies public_key_pem message signature_b64

/-- Embeds the raising variant of `verify_signature` (duplicated verbatim in
federated-catalog and local-catalog-authz): a bad signature raises 403, any
decoding failure (including a `None` key fetched from the registry response)
raises 400. -/
def svc_verify_signature (c : Crypto) (public_key_pem : Option String)
    (message signature_b64 : String) : Except Fault Unit :=
  match public_key_pem with
  | none => .error (.http ⟨400, "Signature verification error"⟩)
  | some pk =>
    if c.keyDecodes pk then
      if c.sigDecodes signature_b64 then
        if c.verifies pk message signature_b64 then .ok ()
        else .error (.http ⟨403, "Invalid signature."⟩)
      else .error (.http ⟨400, "Signature verification error"⟩)
    else .error (.http ⟨400, "Signature verification error"⟩)

/-- Behaviour of the remote Public-Key-Registry as observed by
`requests.get`: the call raises (outage / transport failure), or returns an
HTTP status together with the optional `public_key` field of the JSON body. -/
inductive DirResult where
  | connError
  | resp (status : Nat) (public_key : Option String)
deriving DecidableEq, Repr

/-- Embeds `get_public_key` (duplicated verbatim in federated-catalog and
local-catalog-authz).  The source raises `HTTPException(403, "Public key not
found.")` on a non-200 status *inside* a `try` whose `except Exception`
rewraps every exception — including that `HTTPException` — into
`HTTPException(500, "Failed to fetch public key: ...")`, so both the
not-found case and the outage case leave this function as a 500. -/
def get_public_key (d : DirResult) : Except Fault (Option String) :=
  match d with
  | .connError =>
    .error (.http ⟨500, "Failed to fetch public key: connection error"⟩)
  | .resp status public_key =>
    if status != 200 then
      .error (.http ⟨500, "Failed to fetch public key: 403: Public key not found."⟩)
    else
      .ok public_key

namespace Pkr

/-- Row of the `public_keys` table. -/
structure KeyRecord where
  user_id : String
  public_key : String
  registered_at : Int
deriving DecidableEq, Repr

/-- Body of `/add` (`RegisterRequest`). -/
structure RegisterRequest where
  user_id : String
  public_key : String
  signature : String
  expire_time : String
deriving DecidableEq, Repr

/-- Body of `/delete` (`DeleteRequest`, same fields as registration). -/
structure DeleteRequest where
  user_id : String
  public_key : String
  signature : String
  expire_time : String
deriving DecidableEq, Repr

/-- Embeds `add_key`: message is `user_id + public_key + expire_time`,
verified against the *submitted* key (proof of possession); duplicate
user ids are rejected with 409. -/
def add_key (c : Crypto) (pt : String → Option Int) (now : Int)
    (db : List KeyRecord) (req : RegisterRequest) : Except Fault (List KeyRecord) :=
  match check_expire_time pt now req.expire_time with
  | .error e => .error e
  | .ok _ =>
    if pkr_verify_signature c req.public_key
        (req.user_id ++ req.public_key ++ req.expire_time) req.signature then
      if (db.find? (fun k => k.user_id == req.user_id)).isSome then
        .error (.http ⟨409, "UserID already registered"⟩)
      else
        .ok (db ++ [⟨req.user_id, req.public_key, now⟩])
    else .error (.http ⟨400, "Invalid signature"⟩)

/-- Embeds `get_key`: point lookup, 404 when absent. -/
def get_key (db : List KeyRecord) (user_id : String) : Except Fault KeyRecord :=
  match db.find? (fun k => k.user_id == user_id) with
  | none => .error (.http ⟨404, "Key not found"⟩)
  | some key => .ok key

/-- Embeds `delete_key`: the signature is verified against the *submitted*
`req.public_key`; the stored key is fetched only to check existence and is
never compared with the submitted one. -/
def delete_key (c : Crypto) (pt : String → Option Int) (now : Int)
    (db : List KeyRecord) (req : DeleteRequest) : Except Fault (List KeyRecord) :=
  match check_expire_time pt now req.expire_time with
  | .error e => .error e
  | .ok _ =>
    if pkr_verify_signature c req.public_key
        (req.user_id ++ req.public_key ++ req.expire_time) req.signature then
      match db.find? (fun k => k.user_id == req.user_id) with
      | none => .error (.http ⟨404, "Key not found"⟩)
      | some _ => .ok (eraseFirst (fun k => k.user_id == req.user_id) db)
    else .error (.http ⟨400, "Invalid signature"⟩)

/-- Embeds `delete_all_keys`: unconditional, unsigned bulk deletion. -/
def delete_all_keys (_db : List KeyRecord) : Except Fault (List KeyRecord) :=
  .ok []

/-- One request to the public-key-registry API. -/
inductive PkrOp where
  | add (req : RegisterRequest)
  | get (user_id : String)
  | listKeys
  | delete (req : DeleteRequest)
  | deleteAll
deriving DecidableEq, Repr

/-- State transition of the registry store under one request; a request that
fails leaves the store unchanged. -/
def pkr_step (c : Crypto) (pt : String → Option Int) (now : Int)
    (db : List KeyRecord) (op : PkrOp) : List KeyRecord :=
  match op with
  | .add req =>
    match add_key c pt now db req with
    | .ok db2 => db2
    | .error _ => db
  | .get _ => db
  | .listKeys => db
  | .delete req =>
    match delete_key c pt now db req with
    | .ok db2 => db2
    | .error _ => db
  | .deleteAll => []

end Pkr

namespace Fc

/-- Row of the `federated_catalog` table. -/
structure CatalogRecord where
  data_id : String
  user_id : String
  description : String
  endpoint : String
  created_at : Int
deriving DecidableEq, Repr

/-- Body of `/add` (`CatalogItem`). -/
structure CatalogItem where
  data_id : String
  user_id : String
  description : String
  endpoint : String
  signature : String
  expire_time : String
deriving DecidableEq, Repr

/-- Body of `/delete/{data_id}` (federated-catalog `DeleteRequest`). -/
structure DeleteRequest where
  user_id : String
  signature : String
  expire_time : String
deriving DecidableEq, Repr

/-- Embeds `add_entry`: resolve the claimed owner's key, check freshness,
verify the signature over
`data_id + user_id + description + endpoint + expire_time`, reject duplicate
`data_id` with 400, else insert. -/
def add_entry (c : Crypto) (pt : String → Option Int) (dir : String → DirResult)
    (now : Int) (db : List CatalogRecord) (item : CatalogItem) :
    Except Fault (List CatalogRecord) :=
  match get_public_key (dir item.user_id) with
  | .error e => .error e
  | .ok fetched_pubkey_pem =>
    match check_expire_time pt now item.expire_time with
    | .error e => .error e
    | .ok _ =>
      match svc_verify_signature c fetched_pubkey_pem
          (item.data_id ++ item.user_id ++ item.description ++ item.endpoint ++ item.expire_time)
          item.signature with
      | .error e => .error e
      | .ok _ =>
        if (db.find? (fun r => r.data_id == item.data_id)).isSome then
          .error (.http ⟨400, "DataID already exists."⟩)
        else
          .ok (db ++ [⟨item.data_id, item.user_id, item.description, item.endpoint, now⟩])

/-- Embeds `delete_entry`: key resolution, freshness and signature over
`data_id + user_id + expire_time` come first; then 404 when the entry is
absent and 403 when the stored owner differs from the claimed `user_id`. -/
def delete_entry (c : Crypto) (pt : String → Option Int) (dir : String → DirResult)
    (now : Int) (db : List CatalogRecord) (data_id : String) (req : DeleteRequest) :
    Except Fault (List CatalogRecord) :=
  match get_public_key (dir req.user_id) with
  | .error e => .error e
  | .ok public_key =>
    match check_expire_time pt now req.expire_time with
    | .error e => .error e
    | .ok _ =>
      match svc_verify_signature c public_key (data_id ++ req.user_id ++ req.expire_time)
          req.signature with
      | .error e => .error e
      | .ok _ =>
        match db.find? (fun r => r.data_id == data_id) with
        | none => .error (.http ⟨404, "DataID not found."⟩)
        | some entry =>
          if entry.user_id != req.user_id then
            .error (.http ⟨403, "User not authorized."⟩)
          else
            .ok (eraseFirst (fun r => r.data_id == data_id) db)

/-- One request to the federated-catalog API (the unauthenticated reads and
searches never mutate and are collapsed into `read`). -/
inductive FcOp where
  | add (item : CatalogItem)
  | delete (data_id : String) (req : DeleteRequest)
  | read
  | reset
deriving Repr

/-- State transition of the federated catalog under one request; a failed
request leaves the store unchanged. -/
def fc_step (c : Crypto) (pt : String → Option Int) (dir : String → DirResult)
    (now : Int) (db : List CatalogRecord) (op : FcOp) : List CatalogRecord :=
  match op with
  | .add item =>
    match add_entry c pt dir now db item with
    | .ok db2 => db2
    | .error _ => db
  | .delete data_id req =>
    match delete_entry c pt dir now db data_id req with
    | .ok db2 => db2
    | .error _ => db
  | .read => db
  | .reset => []

end Fc

namespace Lca

/-- Row of the `local_catalog` table; `description` is a nullable column. -/
structure CatalogRecord where
  data_id : String
  description : Option String
  admin_id : String
  endpoint : String
  created_at : Int
deriving DecidableEq, Repr

/-- Row of the `local_authorization` table; composite primary key
`(data_id, access_grantee_id)`. -/
structure AuthzRecord where
  data_id : String
  access_grantee_id : String
  expire_at : Int
  created_at : Int
deriving DecidableEq, Repr

/-- Store of the local-catalog-authz service: both tables. -/
structure State where
  catalog : List CatalogRecord
  authz : List AuthzRecord
deriving DecidableEq, Repr

/-- Body of `/add_data` (`DataItem`); pydantic accepts an absent
`description` as `None`. -/
structure DataItem where
  data_id : String
  description : Option String
  admin_id : String
  endpoint : String
  expire_time : String
  signature : String
deriving DecidableEq, Repr

/-- Body of `/add_authz` (`AuthZItem`). -/
structure AuthZItem where
  data_id : String
  access_grantee_id : String
  expire_at : String
  expire_time : String
  signature : String
deriving DecidableEq, Repr

/-- Body of `/get_data` and `/get_authz` (`SignedGetRequest`). -/
structure SignedGetRequest where
  admin_id : String
  expire_time : String
  signature : String
deriving DecidableEq, Repr

/-- Body of `/delete_data` (`SignedDeleteCatalogRequest`); `description`
is optional. -/
structure SignedDeleteCatalogRequest where
  description : Option String
  admin_id : String
  endpoint : String
  expire_time : String
  signature : String
deriving DecidableEq, Repr

/-- Body of `/delete_authz` (`SignedDeleteAuthZRequest`). -/
structure SignedDeleteAuthZRequest where
  expire_time : String
  signature : String
deriving DecidableEq, Repr

/-- Models the Python expression `some_str + maybe_none`: concatenating a
`None` description raises an unhandled `TypeError`. -/
def strPlusOpt (a : String) (b : Option String) : Except Fault String :=
  match b with
  | none => .error .typeError
  | some s => .ok (a ++ s)

/-- Embeds `get_admin_id_by_data_id`.  The source raises
`HTTPException(404, "DataID ... not found in catalog.")` when the row is
absent, but does so *inside* a `try` whose `except Exception` rewraps every
exception into `HTTPException(500, "Failed to retrieve admin_id ...")`, so
the absent case actually leaves this function as a 500. -/
def get_admin_id_by_data_id (catalog : List CatalogRecord) (data_id : String) :
    Except Fault String :=
  match catalog.find? (fun e => e.data_id == data_id) with
  | none =>
    .error (.http ⟨500, "Failed to retrieve admin_id: 404: DataID not found in catalog."⟩)
  | some entry => .ok entry.admin_id

/-- Embeds `add_data`: freshness, key resolution, signature over
`data_id + description + admin_id + endpoint + expire_time` (crashing with a
`TypeError` when `description` is `None`), duplicate check, insert. -/
def add_data (c : Crypto) (pt : String → Option Int) (dir : String → DirResult)
    (now : Int) (s : State) (item : DataItem) : Except Fault State :=
  match check_expire_time pt now item.expire_time with
  | .error e => .error e
  | .ok _ =>
    match get_public_key (dir item.admin_id) with
    | .error e => .error e
    | .ok fetched_pubkey_pem =>
      match strPlusOpt item.data_id item.description with
      | .error e => .error e
      | .ok pre =>
        match svc_verify_signature c fetched_pubkey_pem
            (pre ++ item.admin_id ++ item.endpoint ++ item.expire_time) item.signature with
        | .error e => .error e
        | .ok _ =>
          if (s.catalog.find? (fun e => e.data_id == item.data_id)).isSome then
            .error (.http ⟨400, "DataID already exists."⟩)
          else
            .ok { s with catalog := s.catalog ++
              [⟨item.data_id, item.description, item.admin_id, item.endpoint, now⟩] }

/-- Embeds `add_authz`: freshness, resolve the resource's administrator
(500 when the resource is absent, see `get_admin_id_by_data_id`), resolve
that admin's key, verify the signature over
`data_id + access_grantee_id + expire_at + expire_time`, re-check resource
existence (404), duplicate (data_id, grantee) check against *presence* of a
record (400), parse `expire_at` (400), insert. -/
def add_authz (c : Crypto) (pt : String → Option Int) (dir : String → DirResult)
    (now : Int) (s : State) (item : AuthZItem) : Except Fault State :=
  match check_expire_time pt now item.expire_time with
  | .error e => .error e
  | .ok _ =>
    match get_admin_id_by_data_id s.catalog item.data_id with
    | .error e => .error e
    | .ok admin_id =>
      match get_public_key (dir admin_id) with
      | .error e => .error e
      | .ok fetched_pubkey_pem =>
        match svc_verify_signature c fetched_pubkey_pem
            (item.data_id ++ item.access_grantee_id ++ item.expire_at ++ item.expire_time)
            item.signature with
        | .error e => .error e
        | .ok _ =>
          if (s.catalog.find? (fun e => e.data_id == item.data_id)).isNone then
            .error (.http ⟨404, "DataID not found."⟩)
          else if (s.authz.find? (fun a =>
              a.data_id == item.data_id && a.access_grantee_id == item.access_grantee_id
            )).isSome then
            .error (.http ⟨400, "AuthZ already exists."⟩)
          else
            match pt item.expire_at with
            | none => .error (.http ⟨400, "Invalid expire_at format"⟩)
            | some expire_dt =>
              .ok { s with authz := s.authz ++
                [⟨item.data_id, item.access_grantee_id, expire_dt, now⟩] }

/-- Embeds `get_data`: existence (404) and administrator match (403) are
checked *before* freshness, key resolution and signature verification; the
signed message is just `expire_time`. -/
def get_data (c : Crypto) (pt : String → Option Int) (dir : String → DirResult)
    (now : Int) (s : State) (data_id : String) (req : SignedGetRequest) :
    Except Fault CatalogRecord :=
  match s.catalog.find? (fun e => e.data_id == data_id) with
  | none => .error (.http ⟨404, "DataID not found."⟩)
  | some entry =>
    if req.admin_id != entry.admin_id then
      .error (.http ⟨403, "User not authorized."⟩)
    else
      match check_expire_time pt now req.expire_time with
      | .error e => .error e
      | .ok _ =>
        match get_public_key (dir req.admin_id) with
        | .error e => .error e
        | .ok fetched_pubkey_pem =>
          match svc_verify_signature c fetched_pubkey_pem req.expire_time req.signature with
          | .error e => .error e
          | .ok _ => .ok entry

/-- Embeds `get_authz`: same authorization as `get_data`; returns only the
grants of `data_id` with `expire_at` strictly in the future. -/
def get_authz (c : Crypto) (pt : String → Option Int) (dir : String → DirResult)
    (now : Int) (s : State) (data_id : String) (req : SignedGetRequest) :
    Except Fault (List AuthzRecord) :=
  match s.catalog.find? (fun e => e.data_id == data_id) with
  | none => .error (.http ⟨404, "DataID not found."⟩)
  | some entry =>
    if req.admin_id != entry.admin_id then
      .error (.http ⟨403, "User not authorized."⟩)
    else
      match check_expire_time pt now req.expire_time with
      | .error e => .error e
      | .ok _ =>
        match get_public_key (dir req.admin_id) with
        | .error e => .error e
        | .ok fetched_pubkey_pem =>
          match svc_verify_signature c fetched_pubkey_pem req.expire_time req.signature with
          | .error e => .error e
          | .ok _ =>
            .ok (s.authz.filter (fun a => a.data_id == data_id && decide (now < a.expire_at)))

/-- Embeds `delete_data`: existence (404), byte-match of
`admin_id`/`endpoint`/`description` against the stored row (400
"Request data does not match stored record." — with `or ""` defaulting on
both descriptions), then freshness, key resolution, signature over
`data_id + description + admin_id + endpoint + expire_time` (a `None`
description again hits the raw `TypeError`), then deletion of the row with a
cascade over all its authorization rows. -/
def delete_data (c : Crypto) (pt : String → Option Int) (dir : String → DirResult)
    (now : Int) (s : State) (data_id : String) (req : SignedDeleteCatalogRequest) :
    Except Fault State :=
  match s.catalog.find? (fun e => e.data_id == data_id) with
  | none => .error (.http ⟨404, "DataID not found."⟩)
  | some entry =>
    if data_id != entry.data_id || req.admin_id != entry.admin_id ||
        req.endpoint != entry.endpoint ||
        req.description.getD "" != entry.description.getD "" then
      .error (.http ⟨400, "Request data does not match stored record."⟩)
    else
      match check_expire_time pt now req.expire_time with
      | .error e => .error e
      | .ok _ =>
        match get_public_key (dir req.admin_id) with
        | .error e => .error e
        | .ok fetched_pubkey_pem =>
          match strPlusOpt data_id req.description with
          | .error e => .error e
          | .ok pre =>
            match svc_verify_signature c fetched_pubkey_pem
                (pre ++ req.admin_id ++ req.endpoint ++ req.expire_time) req.signature with
            | .error e => .error e
            | .ok _ =>
              .ok { catalog := eraseFirst (fun e => e.data_id == data_id) s.catalog,
                    authz := s.authz.filter (fun a => a.data_id != data_id) }

/-- Embeds `delete_authz`: grant existence (404), freshness, administrator
resolution through the catalog, key resolution, signature over
`data_id + access_grantee_id + expire_time`, then deletion of that grant. -/
def delete_authz (c : Crypto) (pt : String → Option Int) (dir : String → DirResult)
    (now : Int) (s : State) (data_id access_grantee_id : String)
    (req : SignedDeleteAuthZRequest) : Except Fault State :=
  match s.authz.find? (fun a =>
      a.data_id == data_id && a.access_grantee_id == access_grantee_id) with
  | none => .error (.http ⟨404, "AuthZ not found."⟩)
  | some _ =>
    match check_expire_time pt now req.expire_time with
    | .error e => .error e
    | .ok _ =>
      match get_admin_id_by_data_id s.catalog data_id with
      | .error e => .error e
      | .ok admin_id =>
        match get_public_key (dir admin_id) with
        | .error e => .error e
        | .ok fetched_pubkey_pem =>
          match svc_verify_signature c fetched_pubkey_pem
              (data_id ++ access_grantee_id ++ req.expire_time) req.signature with
          | .error e => .error e
          | .ok _ =>
            .ok { s with authz := eraseFirst (fun a =>
              a.data_id == data_id && a.access_grantee_id == access_grantee_id) s.authz }

/-- Embeds `reset_all`: unsigned bulk deletion of both tables. -/
def reset_all (_s : State) : Except Fault State :=
  .ok ⟨[], []⟩

/-- One request to the local-catalog-authz API. -/
inductive Op where
  | addData (item : DataItem)
  | addAuthz (item : AuthZItem)
  | getData (data_id : String) (req : SignedGetRequest)
  | getAuthz (data_id : String) (req : SignedGetRequest)
  | deleteData (data_id : String) (req : SignedDeleteCatalogRequest)
  | deleteAuthz (data_id access_grantee_id : String) (req : SignedDeleteAuthZRequest)
  | debugAll
  | reset
deriving Repr

/-- State transition of the local store under one request; a failed request
leaves the store unchanged, reads never mutate. -/
def step (c : Crypto) (pt : String → Option Int) (dir : String → DirResult)
    (now : Int) (s : State) (op : Op) : State :=
  match op with
  | .addData item =>
    match add_data c pt dir now s item with
    | .ok s2 => s2
    | .error _ => s
  | .addAuthz item =>
    match add_authz c pt dir now s item with
    | .ok s2 => s2
    | .error _ => s
  | .getData _ _ => s
  | .getAuthz _ _ => s
  | .deleteData data_id req =>
    match delete_data c pt dir now s data_id req with
    | .ok s2 => s2
    | .error _ => s
  | .deleteAuthz data_id access_grantee_id req =>
    match delete_authz c pt dir now s data_id access_grantee_id req with
    | .ok s2 => s2
    | .error _ => s
  | .debugAll => s
  | .reset => ⟨[], []⟩

/-- Referential integrity of the local store: every authorization row names a
`data_id` that has a catalog row. -/
def noOrphans (s : State) : Prop :=
  ∀ a ∈ s.authz, ∃ e ∈ s.catalog, e.data_id = a.data_id

end Lca

/-! Concrete oracles used to exercise the embedding on closed inputs. -/

/-- Oracle under which every key and signature decodes and verifies. -/
def cryptoAll : Crypto := ⟨fun _ => true, fun _ => true, fun _ _ _ => true⟩

/-- Oracle under which signatures verify exactly for the key "PKB". -/
def cryptoKeyB : Crypto := ⟨fun _ => true, fun _ => true, fun pk _ _ => pk == "PKB"⟩

/-- Oracle under which no public key decodes (malformed PEM input). -/
def cryptoNoDecode : Crypto := ⟨fun _ => false, fun _ => true, fun _ _ _ => true⟩

/-- Oracle under which everything decodes but no signature verifies. -/
def cryptoBadSig : Crypto := ⟨fun _ => true, fun _ => true, fun _ _ _ => false⟩

/-- Parse oracle mapping every timestamp string to the instant 100. -/
def ptW : String → Option Int := fun _ => some 100

/-- Directory oracle: every identity resolves to the key "PK". -/
def dirW : String → DirResult := fun _ => .resp 200 (some "PK")

/-! Helper lemmas about `eraseFirst` and the option guards. -/

theorem mem_of_mem_eraseFirst {α : Type} {p : α → Bool} {l : List α} {r : α}
    (h : r ∈ eraseFirst p l) : r ∈ l := by
  induction l with
  | nil => simp [eraseFirst] at h
  | cons x xs ih =>
    cases hpx : p x with
    | true =>
      simp only [eraseFirst, hpx, if_true] at h
      exact List.mem_cons_of_mem x h
    | false =>
      simp only [eraseFirst, hpx, Bool.false_eq_true, if_false] at h
      rcases List.mem_cons.mp h with rfl | h
      · exact List.mem_cons_self r xs
      · exact List.mem_cons_of_mem x (ih h)

theorem pred_of_not_mem_eraseFirst {α : Type} {p : α → Bool} {l : List α} {r : α}
    (hmem : r ∈ l) (hgone : r ∉ eraseFirst p l) : p r = true := by
  induction l with
  | nil => cases hmem
  | cons x xs ih =>
    cases hpx : p x with
    | true =>
      simp only [eraseFirst, hpx, if_true] at hgone
      rcases List.mem_cons.mp hmem with rfl | hmem
      · exact hpx
      · exact absurd hmem hgone
    | false =>
      simp only [eraseFirst, hpx, Bool.false_eq_true, if_false] at hgone
      rcases List.mem_cons.mp hmem with rfl | hmem
      · exact absurd (List.mem_cons_self r _) hgone
      · exact ih hmem (fun hc => hgone (List.mem_cons_of_mem x hc))

theorem mem_eraseFirst_of_pred_false {α : Type} {p : α → Bool} {l : List α} {r : α}
    (hmem : r ∈ l) (hp : p r = false) : r ∈ eraseFirst p l := by
  induction l with
  | nil => cases hmem
  | cons x xs ih =>
    cases hpx : p x with
    | true =>
      simp only [eraseFirst, hpx, if_true]
      rcases List.mem_cons.mp hmem with rfl | hmem
      · rw [hpx] at hp; cases hp
      · exact hmem
    | false =>
      simp only [eraseFirst, hpx, Bool.false_eq_true, if_false]
      rcases List.mem_cons.mp hmem with rfl | hmem
      · exact List.mem_cons_self r _
      · exact List.mem_cons_of_mem x (ih hmem)

/-! Inversion lemmas: what a successful mutation tells us about the store. -/

theorem Lca.get_admin_id_ok {catalog : List Lca.CatalogRecord} {data_id admin_id : String}
    (h : Lca.get_admin_id_by_data_id catalog data_id = .ok admin_id) :
    ∃ entry, catalog.find? (fun e => e.data_id == data_id) = some entry ∧
      admin_id = entry.admin_id := by
  unfold Lca.get_admin_id_by_data_id at h
  split at h
  · exact Except.noConfusion h
  · rename_i entry hfind
    injection h with h2
    exact ⟨entry, hfind, h2.symm⟩

theorem Lca.add_data_ok {c : Crypto} {pt : String → Option Int} {dir : String → DirResult}
    {now : Int} {s : Lca.State} {item : Lca.DataItem} {s2 : Lca.State}
    (h : Lca.add_data c pt dir now s item = .ok s2) :
    s.catalog.find? (fun e => e.data_id == item.data_id) = none ∧
    s2 = { s with catalog := s.catalog ++
      [⟨item.data_id, item.description, item.admin_id, item.endpoint, now⟩] } := by
  unfold Lca.add_data at h
  split at h
  · exact Except.noConfusion h
  split at h
  · exact Except.noConfusion h
  split at h
  · exact Except.noConfusion h
  split at h
  · exact Except.noConfusion h
  split at h
  · exact Except.noConfusion h
  · rename_i hdup
    refine ⟨Option.not_isSome_iff_eq_none.mp hdup, ?_⟩
    injection h with h2
    exact h2.symm

theorem Pkr.add_key_ok {c : Crypto} {pt : String → Option Int} {now : Int}
    {db : List Pkr.KeyRecord} {req : Pkr.RegisterRequest} {db2 : List Pkr.KeyRecord}
    (h : Pkr.add_key c pt now db req = .ok db2) :
    db2 = db ++ [⟨req.user_id, req.public_key, now⟩] := by
  unfold Pkr.add_key at h
  split at h
  · exact Except.noConfusion h
  split at h
  · split at h
    · exact Except.noConfusion h
    · injection h with h2
      exact h2.symm
  · exact Except.noConfusion h

theorem Pkr.delete_key_ok {c : Crypto} {pt : String → Option Int} {now : Int}
    {db : List Pkr.KeyRecord} {req : Pkr.DeleteRequest} {db2 : List Pkr.KeyRecord}
    (h : Pkr.delete_key c pt now db req = .ok db2) :
    check_expire_time pt now req.expire_time = .ok () ∧
    pkr_verify_signature c req.public_key
      (req.user_id ++ req.public_key ++ req.expire_time) req.signature = true ∧
    db2 = eraseFirst (fun k => k.user_id == req.user_id) db := by
  unfold Pkr.delete_key at h
  split at h
  · exact Except.noConfusion h
  · rename_i u hu
    split at h
    · rename_i hver
      split at h
      · exact Except.noConfusion h
      · injection h with h2
        cases u
        exact ⟨hu, hver, h2.symm⟩
    · exact Except.noConfusion h

theorem Lca.add_authz_ok {c : Crypto} {pt : String → Option Int} {dir : String → DirResult}
    {now : Int} {s : Lca.State} {item : Lca.AuthZItem} {s2 : Lca.State}
    (h : Lca.add_authz c pt dir now s item = .ok s2) :
    (∃ entry, s.catalog.find? (fun e => e.data_id == item.data_id) = some entry) ∧
    s.authz.find? (fun a =>
      a.data_id == item.data_id && a.access_grantee_id == item.access_grantee_id) = none ∧
    ∃ t, pt item.expire_at = some t ∧
      s2 = { s with authz := s.authz ++
        [⟨item.data_id, item.access_grantee_id, t, now⟩] } := by
  unfold Lca.add_authz at h
  split at h
  · exact Except.noConfusion h
  split at h
  · exact Except.noConfusion h
  split at h
  · exact Except.noConfusion h
  split at h
  · exact Except.noConfusion h
  split at h
  · exact Except.noConfusion h
  split at h
  · exact Except.noConfusion h
  · rename_i hsome hdup
    split at h
    · exact Except.noConfusion h
    · rename_i t ht
      refine ⟨?_, ?_, t, ht, ?_⟩
      · cases hfind : s.catalog.find? (fun e => e.data_id == item.data_id) with
        | none => exact absurd (by rw [hfind]; rfl) hsome
        | some entry => exact ⟨entry, rfl⟩
      · simpa using hdup
      · injection h with h2
        exact h2.symm

theorem Lca.delete_data_ok {c : Crypto} {pt : String → Option Int} {dir : String → DirResult}
    {now : Int} {s : Lca.State} {data_id : String} {req : Lca.SignedDeleteCatalogRequest}
    {s2 : Lca.State} (h : Lca.delete_data c pt dir now s data_id req = .ok s2) :
    s2 = { catalog := eraseFirst (fun e => e.data_id == data_id) s.catalog,
           authz := s.authz.filter (fun a => a.data_id != data_id) } := by
  unfold Lca.delete_data at h
  split at h
  · exact Except.noConfusion h
  split at h
  · exact Except.noConfusion h
  split at h
  · exact Except.noConfusion h
  split at h
  · exact Except.noConfusion h
  split at h
  · exact Except.noConfusion h
  split at h
  · exact Except.noConfusion h
  · injection h with h2
    exact h2.symm

theorem Lca.delete_authz_ok {c : Crypto} {pt : String → Option Int} {dir : String → DirResult}
    {now : Int} {s : Lca.State} {data_id access_grantee_id : String}
    {req : Lca.SignedDeleteAuthZRequest} {s2 : Lca.State}
    (h : Lca.delete_authz c pt dir now s data_id access_grantee_id req = .ok s2) :
    s2 = { s with authz := eraseFirst (fun a =>
      a.data_id == data_id && a.access_grantee_id == access_grantee_id) s.authz } := by
  unfold Lca.delete_authz at h
  split at h
  · exact Except.noConfusion h
  split at h
  · exact Except.noConfusion h
  split at h
  · exact Except.noConfusion h
  split at h
  · exact Except.noConfusion h
  split at h
  · exact Except.noConfusion h
  · injection h with h2
    exact h2.symm

/-! Claim theorems. -/

/-- Claim C5: for every request, an `expire_time` that parses to an instant
strictly before the current wall-clock time fails with Expired
(400 "Signature expired") even when the signature is otherwise valid — the
result does not depend on the crypto oracle at all — and an `expire_time`
exactly equal to now is still valid (strict `>` triggers expiry, not `>=`).
Shown on the shared `check_expire_time` and, end to end, on
`Pkr.add_key` and `Lca.add_data`. -/
theorem c5_expiry_strictly_before_now
    (c : Crypto) (pt : String → Option Int) (dir : String → DirResult) (now t : Int)
    (es : String) (ht : pt es = some t)
    (db : List Pkr.KeyRecord) (req : Pkr.RegisterRequest) (hreq : req.expire_time = es)
    (s : Lca.State) (item : Lca.DataItem) (hitem : item.expire_time = es) :
    (t < now → check_expire_time pt now es = .error (.http ⟨400, "Signature expired"⟩)) ∧
    (t = now → check_expire_time pt now es = .ok ()) ∧
    (t < now → Pkr.add_key c pt now db req = .error (.http ⟨400, "Signature expired"⟩)) ∧
    (t < now → Lca.add_data c pt dir now s item = .error (.http ⟨400, "Signature expired"⟩)) := by
  have hexp : t < now →
      check_expire_time pt now es = .error (.http ⟨400, "Signature expired"⟩) := by
    intro hlt
    unfold check_expire_time
    rw [ht]
    simp [hlt]
  refine ⟨hexp, ?_, ?_, ?_⟩
  · intro heq
    subst heq
    unfold check_expire_time
    rw [ht]
    simp
  · intro hlt
    simp [Pkr.add_key, hreq, hexp hlt]
  · intro hlt
    simp [Lca.add_data, hitem, hexp hlt]

/-- Claim C5 witness: concrete instances of the three parts, at now = 200
(strictly past the parse result 100 of `ptW`) and at now = 100 (equal). -/
theorem c5_expiry_strictly_before_now_witness :
    check_expire_time ptW 200 "e" = .error (.http ⟨400, "Signature expired"⟩) ∧
    check_expire_time ptW 100 "e" = .ok () ∧
    Pkr.add_key cryptoAll ptW 200 [] ⟨"u", "PK", "sig", "e"⟩ =
      .error (.http ⟨400, "Signature expired"⟩) ∧
    Lca.add_data cryptoAll ptW dirW 200 ⟨[], []⟩ ⟨"d", some "x", "a", "ep", "e", "sig"⟩ =
      .error (.http ⟨400, "Signature expired"⟩) := by
  refine ⟨?_, ?_, ?_, ?_⟩
  · exact (c5_expiry_strictly_before_now cryptoAll ptW dirW 200 100 "e" rfl []
      ⟨"u", "PK", "sig", "e"⟩ rfl ⟨[], []⟩ ⟨"d", some "x", "a", "ep", "e", "sig"⟩ rfl).1
      (by decide)
  · exact (c5_expiry_strictly_before_now cryptoAll ptW dirW 100 100 "e" rfl []
      ⟨"u", "PK", "sig", "e"⟩ rfl ⟨[], []⟩ ⟨"d", some "x", "a", "ep", "e", "sig"⟩ rfl).2.1 rfl
  · exact (c5_expiry_strictly_before_now cryptoAll ptW dirW 200 100 "e" rfl []
      ⟨"u", "PK", "sig", "e"⟩ rfl ⟨[], []⟩ ⟨"d", some "x", "a", "ep", "e", "sig"⟩ rfl).2.2.1
      (by decide)
  · exact (c5_expiry_strictly_before_now cryptoAll ptW dirW 200 100 "e" rfl []
      ⟨"u", "PK", "sig", "e"⟩ rfl ⟨[], []⟩ ⟨"d", some "x", "a", "ep", "e", "sig"⟩ rfl).2.2.2
      (by decide)

/-- Claim C1 counterexample: a key record for "alice" storing the key "PKA"
is destroyed by a remove request that submits the different key "PKB",
signed by the holder of "PKB" — the source never compares the submitted key
with the stored one, so the claim "destroyed only by a key-matching signed
request" is false. -/
theorem c1_delete_succeeds_with_mismatched_key :
    Pkr.delete_key cryptoKeyB ptW 0 [⟨"alice", "PKA", 0⟩] ⟨"alice", "PKB", "sig", "e"⟩ =
      .ok [] ∧ ("PKB" : String) ≠ "PKA" := by
  exact ⟨rfl, by decide⟩

/-- Claim C1 amended: a key record is destroyed only by the unsigned bulk
`delete_all` operation, or by a remove request naming its identity whose
signature verifies against the *submitted* public key (which need not match
the stored key) within an unexpired, well-formed validity window; `add`,
`get` and `list` never destroy a record. -/
theorem c1_amended_key_record_destruction
    (c : Crypto) (pt : String → Option Int) (now : Int)
    (db : List Pkr.KeyRecord) (op : Pkr.PkrOp) (r : Pkr.KeyRecord)
    (hmem : r ∈ db) (hgone : r ∉ Pkr.pkr_step c pt now db op) :
    op = .deleteAll ∨
      ∃ req : Pkr.DeleteRequest, op = .delete req ∧ req.user_id = r.user_id ∧
        check_expire_time pt now req.expire_time = .ok () ∧
        pkr_verify_signature c req.public_key
          (req.user_id ++ req.public_key ++ req.expire_time) req.signature = true := by
  cases op with
  | add req =>
    exfalso
    simp only [Pkr.pkr_step] at hgone
    cases hres : Pkr.add_key c pt now db req with
    | error e =>
      rw [hres] at hgone
      exact hgone hmem
    | ok db2 =>
      rw [hres] at hgone
      rw [Pkr.add_key_ok hres] at hgone
      exact hgone (List.mem_append_left _ hmem)
  | get uid =>
    exact absurd hmem hgone
  | listKeys =>
    exact absurd hmem hgone
  | deleteAll =>
    exact Or.inl rfl
  | delete req =>
    simp only [Pkr.pkr_step] at hgone
    cases hres : Pkr.delete_key c pt now db req with
    | error e =>
      rw [hres] at hgone
      exact absurd hmem hgone
    | ok db2 =>
      rw [hres] at hgone
      rcases Pkr.delete_key_ok hres with ⟨hcheck, hver, hdb2⟩
      rw [hdb2] at hgone
      have hp := pred_of_not_mem_eraseFirst hmem hgone
      exact Or.inr ⟨req, rfl, (beq_iff_eq.mp hp).symm ▸ rfl, hcheck, hver⟩

/-- Claim C1 amended witness: the record for "alice" with stored key "PKA"
disappears under the remove request submitting the non-matching key "PKB";
the theorem pins the destroying operation down to that signed remove. -/
theorem c1_amended_key_record_destruction_witness :
    Pkr.PkrOp.delete ⟨"alice", "PKB", "sig", "e"⟩ = Pkr.PkrOp.deleteAll ∨
      ∃ req : Pkr.DeleteRequest,
        Pkr.PkrOp.delete ⟨"alice", "PKB", "sig", "e"⟩ = .delete req ∧
        req.user_id = "alice" ∧
        check_expire_time ptW 0 req.expire_time = .ok () ∧
        pkr_verify_signature cryptoKeyB req.public_key
          (req.user_id ++ req.public_key ++ req.expire_time) req.signature = true :=
  c1_amended_key_record_destruction cryptoKeyB ptW 0 [⟨"alice", "PKA", 0⟩]
    (.delete ⟨"alice", "PKB", "sig", "e"⟩) ⟨"alice", "PKA", 0⟩ (by decide) (by decide)

/-- Claim C2: a KeyDirectory outage and an identity with no registered key do
NOT get distinguishable classifications — the source raises its 403
"Public key not found." inside the `try` whose broad `except Exception`
rewraps it, so both cases leave `get_public_key` (and hence the hosting
endpoint, here `Lca.get_data`) as a 500 server error. -/
theorem c2_outage_and_missing_key_same_classification :
    get_public_key .connError =
      .error (.http ⟨500, "Failed to fetch public key: connection error"⟩) ∧
    get_public_key (.resp 404 none) =
      .error (.http ⟨500, "Failed to fetch public key: 403: Public key not found."⟩) ∧
    Lca.get_data cryptoAll ptW (fun _ => .connError) 0
        ⟨[⟨"d", some "x", "admin", "ep", 0⟩], []⟩ "d" ⟨"admin", "e", "sig"⟩ =
      .error (.http ⟨500, "Failed to fetch public key: connection error"⟩) ∧
    Lca.get_data cryptoAll ptW (fun _ => .resp 404 none) 0
        ⟨[⟨"d", some "x", "admin", "ep", 0⟩], []⟩ "d" ⟨"admin", "e", "sig"⟩ =
      .error (.http ⟨500, "Failed to fetch public key: 403: Public key not found."⟩) := by
  exact ⟨rfl, rfl, rfl, rfl⟩

/-- Claim C3: an `add_authz` request for a `data_id` with no LocalResource on
file does NOT fail with a 404 not-found classification: the 404 raised by
`get_admin_id_by_data_id` is rewrapped by its own `except Exception` into a
500, which is what the endpoint returns. -/
theorem c3_add_authz_absent_resource_is_500_not_404 :
    Lca.add_authz cryptoAll ptW dirW 0 ⟨[], []⟩ ⟨"d1", "bob", "ea", "e", "sig"⟩ =
      .error (.http ⟨500, "Failed to retrieve admin_id: 404: DataID not found in catalog."⟩) ∧
    ∀ detail : String,
      Lca.add_authz cryptoAll ptW dirW 0 ⟨[], []⟩ ⟨"d1", "bob", "ea", "e", "sig"⟩ ≠
        .error (.http ⟨404, detail⟩) := by
  have h1 : Lca.add_authz cryptoAll ptW dirW 0 ⟨[], []⟩ ⟨"d1", "bob", "ea", "e", "sig"⟩ =
      .error (.http ⟨500, "Failed to retrieve admin_id: 404: DataID not found in catalog."⟩) :=
    rfl
  refine ⟨h1, ?_⟩
  intro detail h
  rw [h1] at h
  simp at h

/-- Claim C4 counterexample: in the KeyDirectory service the hosted verifier
collapses the two failure cases — under an oracle where the key does not
decode (malformed input) and under an oracle where everything decodes but
the signature does not verify, `verify_signature` returns `False` both
times and `add_key` answers with the identical 400 "Invalid signature"
error, so the caller cannot distinguish them in every hosting service. -/
theorem c4_registry_failure_cases_collapse :
    pkr_verify_signature cryptoNoDecode "PK" "m" "sig" = false ∧
    pkr_verify_signature cryptoBadSig "PK" "m" "sig" = false ∧
    Pkr.add_key cryptoNoDecode ptW 0 [] ⟨"u", "PK", "sig", "e"⟩ =
      .error (.http ⟨400, "Invalid signature"⟩) ∧
    Pkr.add_key cryptoBadSig ptW 0 [] ⟨"u", "PK", "sig", "e"⟩ =
      .error (.http ⟨400, "Invalid signature"⟩) := by
  exact ⟨rfl, rfl, rfl, rfl⟩

/-- Claim C4 amended: the raising verifier hosted by CatalogAuthority and
LocalAccessController distinguishes the two failures (403
"Invalid signature." for a failed verification, 400 for undecodable key or
signature), but the KeyDirectory variant returns `False` in both cases, so
there the two failures are not distinguishable. -/
theorem c4_amended_verifier_distinguishability
    (c : Crypto) (pk msg sig : String) :
    (c.keyDecodes pk = true → c.sigDecodes sig = true → c.verifies pk msg sig = false →
      svc_verify_signature c (some pk) msg sig = .error (.http ⟨403, "Invalid signature."⟩) ∧
      pkr_verify_signature c pk msg sig = false) ∧
    (c.keyDecodes pk = false →
      svc_verify_signature c (some pk) msg sig =
        .error (.http ⟨400, "Signature verification error"⟩) ∧
      pkr_verify_signature c pk msg sig = false) ∧
    (c.keyDecodes pk = true → c.sigDecodes sig = false →
      svc_verify_signature c (some pk) msg sig =
        .error (.http ⟨400, "Signature verification error"⟩) ∧
      pkr_verify_signature c pk msg sig = false) := by
  refine ⟨fun h1 h2 h3 => ⟨?_, ?_⟩, fun h1 => ⟨?_, ?_⟩, fun h1 h2 => ⟨?_, ?_⟩⟩ <;>
    simp [svc_verify_signature, pkr_verify_signature, *]

/-- Claim C4 amended witness: the bad-signature case and the
undecodable-key case, each under a concrete oracle. -/
theorem c4_amended_verifier_distinguishability_witness :
    (svc_verify_signature cryptoBadSig (some "PK") "m" "sig" =
        .error (.http ⟨403, "Invalid signature."⟩) ∧
      pkr_verify_signature cryptoBadSig "PK" "m" "sig" = false) ∧
    (svc_verify_signature cryptoNoDecode (some "PK") "m" "sig" =
        .error (.http ⟨400, "Signature verification error"⟩) ∧
      pkr_verify_signature cryptoNoDecode "PK" "m" "sig" = false) :=
  ⟨(c4_amended_verifier_distinguishability cryptoBadSig "PK" "m" "sig").1 rfl rfl rfl,
   (c4_amended_verifier_distinguishability cryptoNoDecode "PK" "m" "sig").2.1 rfl⟩

/-- Claim C6: a CatalogAuthority retract request and a LocalAccessController
read_resource request whose signature verifies against the claimed
identity's resolved key, but whose claimed identity differs from the stored
owner/administrator of the target record, fail with 403
"User not authorized." and leave the store unchanged. -/
theorem c6_ownership_mismatch_forbidden
    (c : Crypto) (pt : String → Option Int) (dir : String → DirResult) (now : Int)
    (fdb : List Fc.CatalogRecord) (d1 : String) (dreq : Fc.DeleteRequest)
    (entry1 : Fc.CatalogRecord) (pk1 : Option String)
    (hdir1 : get_public_key (dir dreq.user_id) = .ok pk1)
    (hexp1 : check_expire_time pt now dreq.expire_time = .ok ())
    (hver1 : svc_verify_signature c pk1 (d1 ++ dreq.user_id ++ dreq.expire_time)
      dreq.signature = .ok ())
    (hfind1 : fdb.find? (fun r => r.data_id == d1) = some entry1)
    (hown1 : entry1.user_id ≠ dreq.user_id)
    (s : Lca.State) (d2 : String) (greq : Lca.SignedGetRequest)
    (entry2 : Lca.CatalogRecord)
    (hfind2 : s.catalog.find? (fun e => e.data_id == d2) = some entry2)
    (hown2 : greq.admin_id ≠ entry2.admin_id) :
    Fc.delete_entry c pt dir now fdb d1 dreq =
      .error (.http ⟨403, "User not authorized."⟩) ∧
    Fc.fc_step c pt dir now fdb (.delete d1 dreq) = fdb ∧
    Lca.get_data c pt dir now s d2 greq =
      .error (.http ⟨403, "User not authorized."⟩) ∧
    Lca.step c pt dir now s (.getData d2 greq) = s := by
  have h1 : Fc.delete_entry c pt dir now fdb d1 dreq =
      .error (.http ⟨403, "User not authorized."⟩) := by
    simp only [Fc.delete_entry, hdir1, hexp1, hver1, hfind1]
    simp [bne_iff_ne.mpr hown1]
  have h3 : Lca.get_data c pt dir now s d2 greq =
      .error (.http ⟨403, "User not authorized."⟩) := by
    simp only [Lca.get_data, hfind2]
    simp [bne_iff_ne.mpr hown2]
  refine ⟨h1, ?_, h3, rfl⟩
  simp [Fc.fc_step, h1]

/-- Claim C6 witness: a retract by "mallory" of a record owned by "owner"
and a read_resource by "mallory" of a record administered by "admin", both
validly signed under the all-accepting oracle, fail 403 and leave the
stores unchanged. -/
theorem c6_ownership_mismatch_forbidden_witness :
    Fc.delete_entry cryptoAll ptW dirW 0 [⟨"d1", "owner", "desc", "ep", 0⟩] "d1"
        ⟨"mallory", "sig", "e"⟩ = .error (.http ⟨403, "User not authorized."⟩) ∧
    Fc.fc_step cryptoAll ptW dirW 0 [⟨"d1", "owner", "desc", "ep", 0⟩]
        (.delete "d1" ⟨"mallory", "sig", "e"⟩) = [⟨"d1", "owner", "desc", "ep", 0⟩] ∧
    Lca.get_data cryptoAll ptW dirW 0 ⟨[⟨"d2", some "x", "admin", "ep", 0⟩], []⟩ "d2"
        ⟨"mallory", "e", "sig"⟩ = .error (.http ⟨403, "User not authorized."⟩) ∧
    Lca.step cryptoAll ptW dirW 0 ⟨[⟨"d2", some "x", "admin", "ep", 0⟩], []⟩
        (.getData "d2" ⟨"mallory", "e", "sig"⟩) =
      ⟨[⟨"d2", some "x", "admin", "ep", 0⟩], []⟩ :=
  c6_ownership_mismatch_forbidden cryptoAll ptW dirW 0
    [⟨"d1", "owner", "desc", "ep", 0⟩] "d1" ⟨"mallory", "sig", "e"⟩
    ⟨"d1", "owner", "desc", "ep", 0⟩ (some "PK") rfl rfl rfl rfl (by decide)
    ⟨[⟨"d2", some "x", "admin", "ep", 0⟩], []⟩ "d2" ⟨"mallory", "e", "sig"⟩
    ⟨"d2", some "x", "admin", "ep", 0⟩ rfl (by decide)

/-- Claim C7: while any grant record for a (data_id, grantee) pair is present
— its `expire_at` may already be in the past — `add_authz` cannot create a
new grant for the pair and, once its earlier checks pass, rejects with 400
"AuthZ already exists."; and presence ends only through an explicit
revocation request (`delete_authz` for that pair, `delete_data` cascading
over that data_id, or the debug reset), never through mere expiry. -/
theorem c7_duplicate_grant_uses_presence_not_validity
    (c : Crypto) (pt : String → Option Int) (dir : String → DirResult) (now : Int)
    (s : Lca.State) (item : Lca.AuthZItem) (a : Lca.AuthzRecord)
    (hmem : a ∈ s.authz) (hdid : a.data_id = item.data_id)
    (hgid : a.access_grantee_id = item.access_grantee_id) :
    (∀ s2, Lca.add_authz c pt dir now s item ≠ .ok s2) ∧
    (check_expire_time pt now item.expire_time = .ok () →
      ∀ admin_id, Lca.get_admin_id_by_data_id s.catalog item.data_id = .ok admin_id →
      ∀ pk, get_public_key (dir admin_id) = .ok pk →
      svc_verify_signature c pk
        (item.data_id ++ item.access_grantee_id ++ item.expire_at ++ item.expire_time)
        item.signature = .ok () →
      Lca.add_authz c pt dir now s item =
        .error (.http ⟨400, "AuthZ already exists."⟩)) ∧
    (∀ op : Lca.Op, a ∉ (Lca.step c pt dir now s op).authz →
      (∃ r, op = .deleteAuthz a.data_id a.access_grantee_id r) ∨
      (∃ r, op = .deleteData a.data_id r) ∨ op = .reset) := by
  have hpred : (a.data_id == item.data_id &&
      a.access_grantee_id == item.access_grantee_id) = true := by
    rw [hdid, hgid]
    simp
  refine ⟨?_, ?_, ?_⟩
  · intro s2 h
    have hnone := (Lca.add_authz_ok h).2.1
    rw [List.find?_eq_none] at hnone
    exact hnone a hmem hpred
  · intro hexp admin_id hadmin pk hdirk hver
    obtain ⟨entry, hfind, -⟩ := Lca.get_admin_id_ok hadmin
    have hdup : (s.authz.find? (fun x => x.data_id == item.data_id &&
        x.access_grantee_id == item.access_grantee_id)).isSome = true :=
      List.find?_isSome.mpr ⟨a, hmem, hpred⟩
    simp only [Lca.add_authz, hexp, hadmin, hdirk, hver, hfind, hdup]
    simp
  · intro op hgone
    cases op with
    | addData item2 =>
      simp only [Lca.step] at hgone
      cases hres : Lca.add_data c pt dir now s item2 with
      | error e =>
        rw [hres] at hgone
        exact absurd hmem hgone
      | ok s2 =>
        rw [hres] at hgone
        rw [(Lca.add_data_ok hres).2] at hgone
        exact absurd hmem hgone
    | addAuthz item2 =>
      simp only [Lca.step] at hgone
      cases hres : Lca.add_authz c pt dir now s item2 with
      | error e =>
        rw [hres] at hgone
        exact absurd hmem hgone
      | ok s2 =>
        rw [hres] at hgone
        obtain ⟨-, -, t, -, hs2⟩ := Lca.add_authz_ok hres
        rw [hs2] at hgone
        exact absurd (List.mem_append_left _ hmem) hgone
    | getData d r =>
      exact absurd hmem hgone
    | getAuthz d r =>
      exact absurd hmem hgone
    | deleteData d r =>
      simp only [Lca.step] at hgone
      cases hres : Lca.delete_data c pt dir now s d r with
      | error e =>
        rw [hres] at hgone
        exact absurd hmem hgone
      | ok s2 =>
        rw [hres] at hgone
        rw [Lca.delete_data_ok hres] at hgone
        have hkeep : ¬ (a ∈ s.authz ∧ (a.data_id != d) = true) := by
          intro hc
          exact hgone (List.mem_filter.mpr hc)
        have hdd : a.data_id = d := by
          by_contra hne
          exact hkeep ⟨hmem, bne_iff_ne.mpr hne⟩
        exact Or.inr (Or.inl ⟨r, by rw [hdd]⟩)
    | deleteAuthz d g r =>
      simp only [Lca.step] at hgone
      cases hres : Lca.delete_authz c pt dir now s d g r with
      | error e =>
        rw [hres] at hgone
        exact absurd hmem hgone
      | ok s2 =>
        rw [hres] at hgone
        rw [Lca.delete_authz_ok hres] at hgone
        have hp := pred_of_not_mem_eraseFirst hmem hgone
        rw [Bool.and_eq_true] at hp
        have hd : a.data_id = d := beq_iff_eq.mp hp.1
        have hg : a.access_grantee_id = g := beq_iff_eq.mp hp.2
        exact Or.inl ⟨r, by rw [hd, hg]⟩
    | debugAll =>
      exact absurd hmem hgone
    | reset =>
      exact Or.inr (Or.inr rfl)

/-- Claim C7 witness: at now = 60 the stored grant for (d1, bob) is already
expired (expire_at 50), yet add_authz for that pair is rejected with
"AuthZ already exists.", and the grant disappears exactly under the
explicit delete_authz request. -/
theorem c7_duplicate_grant_uses_presence_not_validity_witness :
    (∀ s2, Lca.add_authz cryptoAll ptW dirW 60
        ⟨[⟨"d1", some "x", "admin", "ep", 0⟩], [⟨"d1", "bob", 50, 0⟩]⟩
        ⟨"d1", "bob", "ea", "e", "sig"⟩ ≠ .ok s2) ∧
    (check_expire_time ptW 60 "e" = .ok () →
      ∀ admin_id, Lca.get_admin_id_by_data_id
        [⟨"d1", some "x", "admin", "ep", 0⟩] "d1" = .ok admin_id →
      ∀ pk, get_public_key (dirW admin_id) = .ok pk →
      svc_verify_signature cryptoAll pk
        ("d1" ++ "bob" ++ "ea" ++ "e") "sig" = .ok () →
      Lca.add_authz cryptoAll ptW dirW 60
        ⟨[⟨"d1", some "x", "admin", "ep", 0⟩], [⟨"d1", "bob", 50, 0⟩]⟩
        ⟨"d1", "bob", "ea", "e", "sig"⟩ =
        .error (.http ⟨400, "AuthZ already exists."⟩)) ∧
    (∀ op : Lca.Op, (⟨"d1", "bob", 50, 0⟩ : Lca.AuthzRecord) ∉
        (Lca.step cryptoAll ptW dirW 60
          ⟨[⟨"d1", some "x", "admin", "ep", 0⟩], [⟨"d1", "bob", 50, 0⟩]⟩ op).authz →
      (∃ r, op = .deleteAuthz "d1" "bob" r) ∨
      (∃ r, op = .deleteData "d1" r) ∨ op = .reset) :=
  c7_duplicate_grant_uses_presence_not_validity cryptoAll ptW dirW 60
    ⟨[⟨"d1", some "x", "admin", "ep", 0⟩], [⟨"d1", "bob", 50, 0⟩]⟩
    ⟨"d1", "bob", "ea", "e", "sig"⟩ ⟨"d1", "bob", 50, 0⟩
    (by decide) rfl rfl

/-- Claim C8: a successful revoke_resource leaves zero grants for that
data_id queryable (the resource row and all its grant rows go together),
and any later successful re-publication of the same data_id still has zero
grants for it. -/
theorem c8_revoke_cascades_and_republish_starts_empty
    (c : Crypto) (pt : String → Option Int) (dir : String → DirResult) (now : Int)
    (s s2 : Lca.State) (data_id : String) (req : Lca.SignedDeleteCatalogRequest)
    (h : Lca.delete_data c pt dir now s data_id req = .ok s2) :
    s2.authz.filter (fun a => a.data_id == data_id) = [] ∧
    ∀ (c2 : Crypto) (pt2 : String → Option Int) (dir2 : String → DirResult)
      (now2 : Int) (item : Lca.DataItem) (s3 : Lca.State),
      Lca.add_data c2 pt2 dir2 now2 s2 item = .ok s3 →
      s3.authz.filter (fun a => a.data_id == data_id) = [] := by
  have h2 := Lca.delete_data_ok h
  have hz : s2.authz.filter (fun a => a.data_id == data_id) = [] := by
    rw [h2]
    rw [List.filter_eq_nil_iff]
    intro a ha
    have hbne := (List.mem_filter.mp ha).2
    rw [bne_iff_ne] at hbne
    simp [hbne]
  refine ⟨hz, ?_⟩
  intro c2 pt2 dir2 now2 item s3 hadd
  have h3 := (Lca.add_data_ok hadd).2
  rw [h3]
  simpa using hz

/-- Claim C8 witness: deleting d1, which holds two grants (one expired, one
live), leaves the store empty of d1 grants, and re-publishing d1 afterwards
still shows zero grants for it. -/
theorem c8_revoke_cascades_and_republish_starts_empty_witness :
    ((⟨[], []⟩ : Lca.State).authz.filter (fun a => a.data_id == "d1") = []) ∧
    ∀ (c2 : Crypto) (pt2 : String → Option Int) (dir2 : String → DirResult)
      (now2 : Int) (item : Lca.DataItem) (s3 : Lca.State),
      Lca.add_data c2 pt2 dir2 now2 ⟨[], []⟩ item = .ok s3 →
      s3.authz.filter (fun a => a.data_id == "d1") = [] :=
  c8_revoke_cascades_and_republish_starts_empty cryptoAll ptW dirW 0
    ⟨[⟨"d1", some "x", "admin", "ep", 0⟩],
     [⟨"d1", "bob", 50, 0⟩, ⟨"d1", "carol", 300, 0⟩]⟩ ⟨[], []⟩ "d1"
    ⟨some "x", "admin", "ep", "e", "sig"⟩ rfl

/-- Claim C9: the request schemas of publish_resource and revoke_resource
accept an absent description (`none`), but both handlers concatenate the
description straight into the canonical message, so once the earlier checks
pass such a request dies with the raw unhandled TypeError
(`Fault.typeError`), which is not a taxonomy `HTTPException` at all. -/
theorem c9_none_description_raw_typeerror
    (c : Crypto) (pt : String → Option Int) (dir : String → DirResult) (now : Int)
    (s : Lca.State) (item : Lca.DataItem)
    (hdesc : item.description = none)
    (hexp : check_expire_time pt now item.expire_time = .ok ())
    (pk : Option String) (hdir : get_public_key (dir item.admin_id) = .ok pk)
    (s2 : Lca.State) (d : String) (req : Lca.SignedDeleteCatalogRequest)
    (entry : Lca.CatalogRecord)
    (hfind : s2.catalog.find? (fun e => e.data_id == d) = some entry)
    (hdesc2 : req.description = none) (hadmin : req.admin_id = entry.admin_id)
    (hend : req.endpoint = entry.endpoint) (hdescE : entry.description.getD "" = "")
    (hexp2 : check_expire_time pt now req.expire_time = .ok ())
    (pk2 : Option String) (hdir2 : get_public_key (dir req.admin_id) = .ok pk2) :
    Lca.add_data c pt dir now s item = .error .typeError ∧
    Lca.delete_data c pt dir now s2 d req = .error .typeError := by
  constructor
  · simp [Lca.add_data, hexp, hdir, hdesc, Lca.strPlusOpt]
  · have hde : entry.data_id = d := by
      have hp := List.find?_some hfind
      simpa using hp
    rw [hadmin] at hdir2
    simp [Lca.delete_data, hfind, hde, hadmin, hend, hdesc2, hdescE, hexp2, hdir2,
      Lca.strPlusOpt]

/-- Claim C9 witness: a publish with description omitted on an empty store,
and a revoke with description omitted of a record whose stored description
is the empty string, both die with the raw TypeError. -/
theorem c9_none_description_raw_typeerror_witness :
    Lca.add_data cryptoAll ptW dirW 0 ⟨[], []⟩ ⟨"d", none, "a", "ep", "e", "sig"⟩ =
      .error .typeError ∧
    Lca.delete_data cryptoAll ptW dirW 0 ⟨[⟨"d2", some "", "admin", "ep", 0⟩], []⟩
      "d2" ⟨none, "admin", "ep", "e", "sig"⟩ = .error .typeError :=
  c9_none_description_raw_typeerror cryptoAll ptW dirW 0 ⟨[], []⟩
    ⟨"d", none, "a", "ep", "e", "sig"⟩ rfl rfl (some "PK") rfl
    ⟨[⟨"d2", some "", "admin", "ep", 0⟩], []⟩ "d2" ⟨none, "admin", "ep", "e", "sig"⟩
    ⟨"d2", some "", "admin", "ep", 0⟩ rfl rfl rfl rfl rfl rfl (some "PK") rfl

/-- Claim C10: referential integrity of grants is preserved by every
operation of the local service — starting from a store where every grant
names an existing resource, no request (mutating or not, succeeding or
failing) can leave behind a grant whose resource is gone. -/
theorem c10_no_orphaned_grants
    (c : Crypto) (pt : String → Option Int) (dir : String → DirResult) (now : Int)
    (s : Lca.State) (op : Lca.Op) (hinv : Lca.noOrphans s) :
    Lca.noOrphans (Lca.step c pt dir now s op) := by
  cases op with
  | addData item =>
    simp only [Lca.step]
    cases hres : Lca.add_data c pt dir now s item with
    | error e => exact hinv
    | ok s2 =>
      rw [(Lca.add_data_ok hres).2]
      intro a ha
      obtain ⟨e, he, hde⟩ := hinv a ha
      exact ⟨e, List.mem_append_left _ he, hde⟩
  | addAuthz item =>
    simp only [Lca.step]
    cases hres : Lca.add_authz c pt dir now s item with
    | error e => exact hinv
    | ok s2 =>
      obtain ⟨⟨entry, hfind⟩, -, t, -, hs2⟩ := Lca.add_authz_ok hres
      rw [hs2]
      intro a ha
      rcases List.mem_append.mp ha with ha | ha
      · exact hinv a ha
      · have : a = ⟨item.data_id, item.access_grantee_id, t, now⟩ := by
          simpa using ha
        subst this
        have hed : entry.data_id = item.data_id := by
          have hp := List.find?_some hfind
          simpa using hp
        exact ⟨entry, List.mem_of_find?_eq_some hfind, hed⟩
  | getData d r => exact hinv
  | getAuthz d r => exact hinv
  | deleteData d r =>
    simp only [Lca.step]
    cases hres : Lca.delete_data c pt dir now s d r with
    | error e => exact hinv
    | ok s2 =>
      rw [Lca.delete_data_ok hres]
      intro a ha
      obtain ⟨hmem, hbne⟩ := List.mem_filter.mp ha
      obtain ⟨e, he, hde⟩ := hinv a hmem
      have hne : a.data_id ≠ d := bne_iff_ne.mp hbne
      refine ⟨e, mem_eraseFirst_of_pred_false he ?_, hde⟩
      rw [hde]
      exact beq_eq_false_iff_ne.mpr hne
  | deleteAuthz d g r =>
    simp only [Lca.step]
    cases hres : Lca.delete_authz c pt dir now s d g r with
    | error e => exact hinv
    | ok s2 =>
      rw [Lca.delete_authz_ok hres]
      intro a ha
      exact hinv a (mem_of_mem_eraseFirst ha)
  | debugAll => exact hinv
  | reset =>
    intro a ha
    exact absurd ha (List.not_mem_nil a)

/-- Claim C10 witness: a store with one resource d1 and one grant on it
satisfies the integrity invariant, and still satisfies it after a
successful revoke_resource of d1 (which removes the grant together with the
resource). -/
theorem c10_no_orphaned_grants_witness :
    Lca.noOrphans ⟨[⟨"d1", some "x", "admin", "ep", 0⟩], [⟨"d1", "bob", 50, 0⟩]⟩ ∧
    Lca.noOrphans (Lca.step cryptoAll ptW dirW 0
      ⟨[⟨"d1", some "x", "admin", "ep", 0⟩], [⟨"d1", "bob", 50, 0⟩]⟩
      (.deleteData "d1" ⟨some "x", "admin", "ep", "e", "sig"⟩)) :=
  ⟨by unfold Lca.noOrphans; decide, c10_no_orphaned_grants cryptoAll ptW dirW 0
    ⟨[⟨"d1", some "x", "admin", "ep", 0⟩], [⟨"d1", "bob", 50, 0⟩]⟩
    (.deleteData "d1" ⟨some "x", "admin", "ep", "e", "sig"⟩)
    (by unfold Lca.noOrphans; decide)⟩
